import Mathlib

/-!
Verification of boostpp, `include/async_request.hpp`.

A shallow embedding of the data model and operations declared in
`include/async_request.hpp`, followed by the properties established about them.

Conventions.
* `int` and `std::chrono::milliseconds::rep` are modelled by `Int`; none of the
  operations below performs arithmetic, so no wrap-around can occur.
* `std::string` is modelled by `String`; `std::map<std::string, std::string>` by
  `StrMap`, a list of entries kept in strictly increasing key order.
* The effect "the stored callback `m_callback` is called with `(e, r)`" is made
  explicit as an entry appended to the field `invoked` of `AsyncRequest`.
-/

namespace boostpp

/-! ## `std::map<std::string, std::string>` -/

/-- The entries of a `std::map<std::string, std::string>`, in iteration order.
The comparator is the default one, `StrMap.less`. -/
abbrev StrMap := List (String × String)

namespace StrMap

/-- The comparator `std::less<std::string>`, that is `operator<` on strings:
lexicographic comparison of the character sequences. -/
def less (a b : String) : Bool := decide (a.data < b.data)

/-- The number of entries, `std::map::size`. -/
def size (h : StrMap) : Nat := h.length

/-- The lookup `std::map::find`: the mapped value of the entry whose key is
equivalent to `k` (neither `less k key` nor `less key k`), if there is one. -/
def find : StrMap → String → Option String
  | [], _ => none
  | (k', v') :: t, k =>
    if less k k' then none
    else if less k' k then find t k
    else some v'

/-- The insertion `std::map::insert` of the pair `(k, v)`: the map is left
unchanged when it already holds an entry whose key is equivalent to `k`. -/
def insert : StrMap → String → String → StrMap
  | [], k, v => [(k, v)]
  | (k', v') :: t, k, v =>
    if less k k' then (k, v) :: (k', v') :: t
    else if less k' k then (k', v') :: insert t k v
    else (k', v') :: t

/-- The keys of the entries, in iteration order. -/
def keys (h : StrMap) : List String := h.map Prod.fst

/-- The representation invariant of `std::map`: keys strictly increasing, hence
unique. -/
def WF (h : StrMap) : Prop := h.keys.Pairwise (fun a b => less a b = true)

instance (h : StrMap) : Decidable h.WF := by
  unfold WF; infer_instance

end StrMap

/-- The strings `a` and `b` differ at most in ASCII letter case. -/
def sameIgnoringCase (a b : String) : Prop :=
  a.data.map Char.toLower = b.data.map Char.toLower

instance (a b : String) : Decidable (sameIgnoringCase a b) := by
  unfold sameIgnoringCase; infer_instance

/-! ## Data model -/

/-- The enumeration `enum class HttpMethod`. -/
inductive HttpMethod where
  | Get
  | Post
  | Put
  | Delete
  deriving DecidableEq, Repr

/-- The aggregate `struct RequestOptions`, with its default member initialisers. -/
structure RequestOptions where
  headers : StrMap := []
  query : StrMap := []
  /-- The count of the `std::chrono::milliseconds` value. -/
  timeout : Int := 30000
  keep_alive : Bool := true
  follow_redirects : Bool := true
  deriving DecidableEq, Repr

/-- The value held by one data member of `RequestOptions`. -/
inductive MemberValue where
  /-- A `std::map<std::string, std::string>`. -/
  | map (m : StrMap)
  /-- A `std::chrono::milliseconds`, by its count. -/
  | millis (n : Int)
  /-- A `bool`. -/
  | flag (b : Bool)
  /-- An integer. -/
  | int (n : Int)
  deriving DecidableEq, Repr

/-- The number carried by a member value, for the numeric kinds. -/
def MemberValue.number? : MemberValue → Option Int
  | .millis n => some n
  | .int n => some n
  | .map _ => none
  | .flag _ => none

/-- The data members of `struct RequestOptions` in declaration order, each with
its name and the value it holds. -/
def RequestOptions.members (o : RequestOptions) : List (String × MemberValue) :=
  [("headers", .map o.headers),
   ("query", .map o.query),
   ("timeout", .millis o.timeout),
   ("keep_alive", .flag o.keep_alive),
   ("follow_redirects", .flag o.follow_redirects)]

/-- The aggregate `struct Response`, with its default member initialisers. -/
structure Response where
  status : Int := 0
  body : String := ""
  headers : StrMap := []
  deriving DecidableEq, Repr

/-- The member function `Response::ok`. -/
def Response.ok (r : Response) : Bool :=
  decide (r.status ≥ 200) && decide (r.status < 300)

/-- The library type `boost::system::error_code` (`beast::error_code`), by its
integer value; a default-constructed code has value `0`. -/
structure error_code where
  val : Int := 0
  deriving DecidableEq, Repr

/-- The conversion `error_code::operator bool`: true when the code denotes a
failure, which is when its value is not `0`. -/
def error_code.toBool (ec : error_code) : Bool := ec.val != 0

/-- The aggregate `struct Error`. -/
structure Error where
  ec : error_code := {}
  msg : String := ""
  deriving DecidableEq, Repr

/-- The conversion `Error::operator bool`, whose body is `return !!ec;`. -/
def Error.toBool (e : Error) : Bool := !(!e.ec.toBool)

/-! ## `class AsyncRequest` -/

/-- A resolved endpoint (`tcp::resolver::results_type::endpoint_type`): address
and port. -/
abbrev Endpoint := String × Nat

/-- The state of an `AsyncRequest` object that the member functions can read or
write, and the calls made to `m_callback` so far (oldest first). -/
structure AsyncRequest where
  m_host : String
  m_port : String
  m_target : String
  m_ssl : Bool
  invoked : List (Error × Response)
  deriving DecidableEq, Repr

namespace AsyncRequest

/-- The constructor `AsyncRequest(net::io_context &)`: the strings are empty,
`m_ssl` has its initialiser `false`, and nothing has been called. -/
def init : AsyncRequest :=
  { m_host := "", m_port := "", m_target := "", m_ssl := false, invoked := [] }

/-- The member function `AsyncRequest::request`; its body is empty. -/
def request (s : AsyncRequest) (_method : HttpMethod) (_url : String)
    (_options : RequestOptions) : AsyncRequest := s

/-- The member function `AsyncRequest::onResolve`; its body is empty. -/
def onResolve (s : AsyncRequest) (_ec : error_code) (_results : List Endpoint) :
    AsyncRequest := s

/-- The member function `AsyncRequest::onConnect`; its body is empty. -/
def onConnect (s : AsyncRequest) (_ec : error_code) (_endpoint : Endpoint) :
    AsyncRequest := s

/-- The member function `AsyncRequest::onHandshake`; its body is empty. -/
def onHandshake (s : AsyncRequest) (_ec : error_code) : AsyncRequest := s

/-- The member function `AsyncRequest::onWrite`; its body is empty. -/
def onWrite (s : AsyncRequest) (_ec : error_code) (_bytes_transferred : Nat) :
    AsyncRequest := s

/-- The member function `AsyncRequest::onRead`; its body is empty. -/
def onRead (s : AsyncRequest) (_ec : error_code) (_bytes_transferred : Nat) :
    AsyncRequest := s

end AsyncRequest

/-- One delivery of a completion hook of the asynchronous chain, with the
arguments it is called with. -/
inductive Hook where
  | resolve (ec : error_code) (results : List Endpoint)
  | connect (ec : error_code) (endpoint : Endpoint)
  | handshake (ec : error_code)
  | write (ec : error_code) (bytes_transferred : Nat)
  | read (ec : error_code) (bytes_transferred : Nat)
  deriving DecidableEq, Repr

/-- The error code a hook is delivered with. -/
def Hook.ec : Hook → error_code
  | .resolve ec _ => ec
  | .connect ec _ => ec
  | .handshake ec => ec
  | .write ec _ => ec
  | .read ec _ => ec

/-- Delivering one hook calls the member function of that name. -/
def AsyncRequest.deliver (s : AsyncRequest) : Hook → AsyncRequest
  | .resolve ec results => s.onResolve ec results
  | .connect ec endpoint => s.onConnect ec endpoint
  | .handshake ec => s.onHandshake ec
  | .write ec n => s.onWrite ec n
  | .read ec n => s.onRead ec n

/-- Delivering a sequence of hooks, in order. -/
def AsyncRequest.run (s : AsyncRequest) (hooks : List Hook) : AsyncRequest :=
  hooks.foldl AsyncRequest.deliver s

/-! ## `struct RequestBuilder` -/

/-- The aggregate `struct RequestBuilder`; the reference member `m_ioc` is
modelled by the identity of the `io_context` it refers to. -/
structure RequestBuilder where
  m_ioc : Nat
  m_method : HttpMethod
  m_url : String
  m_options : RequestOptions
  deriving DecidableEq, Repr

namespace RequestBuilder

/-- The setter `RequestBuilder::method`: assigns `m_method` and returns `*this`. -/
def method (b : RequestBuilder) (method : HttpMethod) : RequestBuilder :=
  { b with m_method := method }

/-- The setter `RequestBuilder::url`: assigns `m_url` and returns `*this`. -/
def url (b : RequestBuilder) (url : String) : RequestBuilder :=
  { b with m_url := url }

/-- The setter `RequestBuilder::options`: assigns `m_options` and returns `*this`. -/
def options (b : RequestBuilder) (options : RequestOptions) : RequestBuilder :=
  { b with m_options := options }

end RequestBuilder

/-! ## Properties -/

/-! ### `Response` -/

/-- C4: for every `Response r`, `r.ok()` is true exactly when
`200 <= r.status < 300`, whatever the body and headers are; a response with
status 200 and body "ok" is ok, and statuses 199 and 300 are not. -/
theorem response_ok_iff :
    (∀ r : Response, r.ok = true ↔ (200 ≤ r.status ∧ r.status < 300)) ∧
    (∀ (status : Int) (body body2 : String) (headers headers2 : StrMap),
      Response.ok { status := status, body := body, headers := headers } =
        Response.ok { status := status, body := body2, headers := headers2 }) ∧
    Response.ok { status := 200, body := "ok" } = true ∧
    (∀ (body : String) (headers : StrMap),
      Response.ok { status := 199, body := body, headers := headers } = false ∧
      Response.ok { status := 300, body := body, headers := headers } = false) := by
  refine ⟨?_, ?_, ?_, ?_⟩
  · intro r
    simp [Response.ok]
  · intro status body body2 headers headers2
    rfl
  · decide
  · intro body headers
    constructor <;> simp [Response.ok]

/-- C9: the default-constructed `Response` has status 0, an empty body and an
empty header map, and its `ok()` is false. -/
theorem default_response_not_ok :
    ({} : Response).status = 0 ∧ ({} : Response).body = "" ∧
    ({} : Response).headers = [] ∧ ({} : Response).headers.size = 0 ∧
    ({} : Response).ok = false := by
  refine ⟨rfl, rfl, rfl, rfl, ?_⟩
  decide

/-! ### `Error` -/

/-- C5, as claimed, fails: the `Error` with the no-error code and the message
"boom" is not empty, yet it converts to `false`. -/
theorem error_bool_ignores_msg_counterexample :
    Error.toBool { ec := { val := 0 }, msg := "boom" } = false ∧
    ¬ (({ ec := { val := 0 }, msg := "boom" } : Error).ec.val = 0 ∧
       ({ ec := { val := 0 }, msg := "boom" } : Error).msg = "") := by
  constructor
  · decide
  · decide

/-- C5, amended: for every `Error e`, converting `e` to bool yields false
exactly when its error code `ec` is the no-error code (value 0), and true
exactly when it is not; the message `msg` plays no part in the conversion. -/
theorem error_bool_iff_ec :
    (∀ e : Error, e.toBool = false ↔ e.ec.val = 0) ∧
    (∀ e : Error, e.toBool = true ↔ e.ec.val ≠ 0) ∧
    (∀ (ec : error_code) (msg msg2 : String),
      Error.toBool { ec := ec, msg := msg } = Error.toBool { ec := ec, msg := msg2 }) := by
  refine ⟨?_, ?_, ?_⟩
  · intro e
    simp [Error.toBool, error_code.toBool]
  · intro e
    simp [Error.toBool, error_code.toBool]
  · intro ec msg msg2
    rfl

/-! ### `RequestOptions` -/

/-- C10: a default-constructed `RequestOptions` has an empty header map, an
empty query map, a timeout of exactly 30000 milliseconds, `keep_alive = true`
and `follow_redirects = true`. -/
theorem default_request_options :
    ({} : RequestOptions).headers = [] ∧ ({} : RequestOptions).headers.size = 0 ∧
    ({} : RequestOptions).query = [] ∧ ({} : RequestOptions).query.size = 0 ∧
    ({} : RequestOptions).timeout = 30000 ∧
    ({} : RequestOptions).keep_alive = true ∧
    ({} : RequestOptions).follow_redirects = true :=
  ⟨rfl, rfl, rfl, rfl, rfl, rfl, rfl⟩

/-- C7, as claimed, fails: no data member of a default-constructed
`RequestOptions`, under any name, carries the number 10. -/
theorem no_max_redirects_member_counterexample :
    ¬ ∃ m ∈ RequestOptions.members {}, m.2.number? = some 10 := by
  decide

/-- C7, amended: a `RequestOptions` carries no maximum-redirects count. Its data
members are exactly `headers`, `query`, `timeout`, `keep_alive` and
`follow_redirects`, they determine the value, and in a default-constructed
`RequestOptions` the only number carried is the timeout, 30000. -/
theorem request_options_members :
    (∀ o : RequestOptions, o.members.map Prod.fst =
      ["headers", "query", "timeout", "keep_alive", "follow_redirects"]) ∧
    (∀ o o2 : RequestOptions, o.members = o2.members ↔ o = o2) ∧
    (RequestOptions.members {}).filterMap (fun m => m.2.number?) = [30000] := by
  refine ⟨?_, ?_, ?_⟩
  · intro o
    rfl
  · intro o o2
    constructor
    · intro h
      cases o
      cases o2
      simp [RequestOptions.members] at h
      simp [h]
    · intro h
      rw [h]
  · decide

/-! ### The header map -/

namespace StrMap

/-- The comparator agrees with the order of `String`. -/
theorem less_iff (a b : String) : less a b = true ↔ a < b := by
  simp [less, String.lt_iff_toList_lt]

theorem less_irrefl (a : String) : less a a = false := by
  cases hl : less a a
  · rfl
  · exact absurd ((less_iff a a).1 hl) (lt_irrefl a)

theorem less_asymm {a b : String} (hab : less a b = true) : less b a = false := by
  cases hl : less b a
  · rfl
  · exact absurd ((less_iff b a).1 hl) (lt_asymm ((less_iff a b).1 hab))

theorem less_trans {a b c : String} (hab : less a b = true) (hbc : less b c = true) :
    less a c = true :=
  (less_iff a c).2 (lt_trans ((less_iff a b).1 hab) ((less_iff b c).1 hbc))

/-- Two keys neither of which is less than the other are the same string. -/
theorem eq_of_not_less {a b : String} (hab : less a b = false) (hba : less b a = false) :
    a = b := by
  have h1 : ¬ a < b := fun hlt => by simp [(less_iff a b).2 hlt] at hab
  have h2 : ¬ b < a := fun hlt => by simp [(less_iff b a).2 hlt] at hba
  exact le_antisymm (not_lt.1 h2) (not_lt.1 h1)

theorem find_insert (h : StrMap) (k v k2 : String) :
    (h.insert k v).find k2 =
      if k2 = k then some ((h.find k).getD v) else h.find k2 := by
  induction h with
  | nil =>
    by_cases hk : k2 = k
    · subst hk
      simp [insert, find, less_irrefl]
    · simp only [insert, find, hk, if_false]
      cases h1 : less k2 k
      · cases h2 : less k k2
        · exact absurd (eq_of_not_less h1 h2) hk
        · simp
      · simp
  | cons e t ih =>
    obtain ⟨k0, v0⟩ := e
    by_cases hk : k2 = k
    · subst hk
      cases h1 : less k2 k0
      · cases h2 : less k0 k2
        · simp [insert, find, h1, h2]
        · simp [insert, find, h1, h2, ih]
      · simp [insert, find, h1, less_irrefl]
    · simp only [hk, if_false]
      cases h1 : less k k0
      · cases h2 : less k0 k
        · simp [insert, h1, h2]
        · simp only [insert, h1, h2, find, if_true, Bool.false_eq_true, if_false]
          rw [ih]
          simp [hk]
      · simp only [insert, h1, if_true]
        cases h3 : less k2 k
        · cases h4 : less k k2
          · exact absurd (eq_of_not_less h3 h4) hk
          · simp [find, h3, h4]
        · simp [find, h3, less_trans h3 h1]

theorem size_insert (h : StrMap) (k v : String) :
    (h.insert k v).size = h.size + (if (h.find k).isSome then 0 else 1) := by
  induction h with
  | nil => simp [insert, find, size]
  | cons e t ih =>
    obtain ⟨k0, v0⟩ := e
    cases h1 : less k k0
    · cases h2 : less k0 k
      · simp [insert, find, size, h1, h2]
      · simp only [size] at ih
        simp [insert, find, size, h1, h2, ih]
        omega
    · simp [insert, find, size, h1]

theorem mem_keys_insert (h : StrMap) (k v x : String) (hx : x ∈ (h.insert k v).keys) :
    x = k ∨ x ∈ h.keys := by
  induction h with
  | nil =>
    simp [insert, keys] at hx
    exact Or.inl hx
  | cons e t ih =>
    obtain ⟨k0, v0⟩ := e
    cases h1 : less k k0
    · cases h2 : less k0 k
      · simp [insert, h1, h2] at hx
        exact Or.inr hx
      · simp only [insert, h1, h2, keys, if_true, Bool.false_eq_true, if_false,
          List.map_cons, List.mem_cons] at hx
        rcases hx with hx | hx
        · exact Or.inr (by simp [keys, hx])
        · rcases ih hx with hx | hx
          · exact Or.inl hx
          · exact Or.inr (by simp only [keys] at hx; simp [keys, hx])
    · simp only [insert, h1, if_true, keys, List.map_cons, List.mem_cons] at hx
      rcases hx with hx | hx
      · exact Or.inl hx
      · exact Or.inr (by simpa [keys] using hx)

theorem wf_insert (h : StrMap) (k v : String) (hwf : h.WF) : (h.insert k v).WF := by
  induction h with
  | nil => simp [insert, WF, keys]
  | cons e t ih =>
    obtain ⟨k0, v0⟩ := e
    have hwf2 : (∀ x ∈ keys t, less k0 x = true) ∧ WF t := by
      simpa [WF, keys] using hwf
    cases h1 : less k k0
    · cases h2 : less k0 k
      · simpa [insert, h1, h2] using hwf
      · have hins := ih hwf2.2
        simp only [insert, h1, h2, if_true, Bool.false_eq_true, if_false]
        show List.Pairwise _ (k0 :: keys (insert t k v))
        refine List.pairwise_cons.2 ⟨?_, hins⟩
        intro x hx
        rcases mem_keys_insert t k v x hx with hx | hx
        · rw [hx]; exact h2
        · exact hwf2.1 x hx
    · simp only [insert, h1, if_true]
      show List.Pairwise _ (k :: k0 :: keys t)
      refine List.pairwise_cons.2 ⟨?_, hwf⟩
      intro x hx
      rcases List.mem_cons.1 hx with hx | hx
      · rw [hx]; exact h1
      · exact less_trans h1 (hwf2.1 x hx)

theorem nodup_keys_of_wf (h : StrMap) (hwf : h.WF) : h.keys.Nodup := by
  refine List.Pairwise.imp ?_ hwf
  intro a b hab heq
  rw [heq, less_irrefl] at hab
  exact Bool.false_ne_true hab

end StrMap

/-- C8, as claimed, fails: "Accept" and "accept" differ only in letter case, yet
inserting under "Accept" and then under "accept" into the empty header map
leaves two entries, looking up "accept" finds the second value and not the one
stored under "Accept", and after the first insertion alone looking up "accept"
finds nothing. -/
theorem headers_case_insensitive_counterexample :
    sameIgnoringCase "Accept" "accept" ∧
    (StrMap.insert [] "Accept" "a").insert "accept" "b" =
      [("Accept", "a"), ("accept", "b")] ∧
    ((StrMap.insert [] "Accept" "a").insert "accept" "b").size = 2 ∧
    ((StrMap.insert [] "Accept" "a").insert "accept" "b").find "accept" = some "b" ∧
    (StrMap.insert [] "Accept" "a").find "accept" = none := by
  refine ⟨?_, ?_, ?_, ?_, ?_⟩ <;> decide

/-- C8, amended: the header mapping has unique keys that are compared exactly
(case-sensitively). For every well-formed header map `h` and keys `k1`, `k2`,
inserting a value under `k1` and then under `k2` keeps the keys strictly
increasing and so unique; it adds one entry for `k1` unless `h` had one, and one
for `k2` unless `k2 = k1` or `h` had one; and looking up any key `k` afterwards
finds the entry stored under exactly `k`: the one of `k1` when `k = k1`, else
the one of `k2` when `k = k2`, else what `h` held. -/
theorem headers_keys_unique_exact (h : StrMap) (k1 k2 v1 v2 k : String)
    (hwf : h.WF) :
    ((h.insert k1 v1).insert k2 v2).WF ∧
    ((h.insert k1 v1).insert k2 v2).keys.Nodup ∧
    ((h.insert k1 v1).insert k2 v2).size =
      h.size + (if (h.find k1).isSome then 0 else 1)
        + (if k2 = k1 ∨ (h.find k2).isSome then 0 else 1) ∧
    ((h.insert k1 v1).insert k2 v2).find k =
      if k = k1 then some ((h.find k1).getD v1)
      else if k = k2 then some ((h.find k2).getD v2)
      else h.find k := by
  have hwf2 := StrMap.wf_insert _ k2 v2 (StrMap.wf_insert h k1 v1 hwf)
  refine ⟨hwf2, StrMap.nodup_keys_of_wf _ hwf2, ?_, ?_⟩
  · rw [StrMap.size_insert, StrMap.size_insert, StrMap.find_insert]
    by_cases h21 : k2 = k1
    · simp [h21]
    · simp [h21]
  · rw [StrMap.find_insert, StrMap.find_insert, StrMap.find_insert]
    by_cases hk2 : k = k2
    · subst hk2
      by_cases hk1 : k = k1
      · subst hk1
        simp
      · simp [hk1]
    · simp [hk2]

/-- The amended C8 at the empty map with the keys "Accept" and "accept": two
entries, and looking up "accept" finds the value inserted under "accept". -/
theorem headers_keys_unique_exact_witness :
    StrMap.WF [] ∧
    (((StrMap.insert [] "Accept" "a").insert "accept" "b").WF ∧
    ((StrMap.insert [] "Accept" "a").insert "accept" "b").keys.Nodup ∧
    ((StrMap.insert [] "Accept" "a").insert "accept" "b").size =
      StrMap.size [] + (if (StrMap.find [] "Accept").isSome then 0 else 1)
        + (if "accept" = "Accept" ∨ (StrMap.find [] "accept").isSome then 0 else 1) ∧
    ((StrMap.insert [] "Accept" "a").insert "accept" "b").find "accept" =
      if "accept" = "Accept" then some ((StrMap.find [] "Accept").getD "a")
      else if "accept" = "accept" then some ((StrMap.find [] "accept").getD "b")
      else StrMap.find [] "accept") :=
  ⟨by decide, headers_keys_unique_exact [] "Accept" "accept" "a" "b" "accept" (by decide)⟩

/-! ### `RequestBuilder` -/

/-- C6: each setter of `RequestBuilder` assigns its own field and leaves the
others unchanged, and chaining the three setters in any of the six orders gives
the same builder, with fields `(m, u, o)`. -/
theorem builder_setters (b : RequestBuilder) (m : HttpMethod) (u : String)
    (o : RequestOptions) :
    (b.method m = { b with m_method := m }) ∧
    ((b.method m).m_method = m ∧ (b.method m).m_url = b.m_url ∧
      (b.method m).m_options = b.m_options ∧ (b.method m).m_ioc = b.m_ioc) ∧
    (b.url u = { b with m_url := u }) ∧
    ((b.url u).m_url = u ∧ (b.url u).m_method = b.m_method ∧
      (b.url u).m_options = b.m_options ∧ (b.url u).m_ioc = b.m_ioc) ∧
    (b.options o = { b with m_options := o }) ∧
    ((b.options o).m_options = o ∧ (b.options o).m_method = b.m_method ∧
      (b.options o).m_url = b.m_url ∧ (b.options o).m_ioc = b.m_ioc) ∧
    (((b.method m).url u).options o =
      { m_ioc := b.m_ioc, m_method := m, m_url := u, m_options := o }) ∧
    (((b.method m).options o).url u = ((b.method m).url u).options o) ∧
    (((b.url u).method m).options o = ((b.method m).url u).options o) ∧
    (((b.url u).options o).method m = ((b.method m).url u).options o) ∧
    (((b.options o).method m).url u = ((b.method m).url u).options o) ∧
    (((b.options o).url u).method m = ((b.method m).url u).options o) :=
  ⟨rfl, ⟨rfl, rfl, rfl, rfl⟩, rfl, ⟨rfl, rfl, rfl, rfl⟩, rfl, ⟨rfl, rfl, rfl, rfl⟩,
    rfl, rfl, rfl, rfl, rfl, rfl⟩

/-! ### `AsyncRequest` -/

/-- Delivering any sequence of hooks leaves the object as it was: each hook has
an empty body. -/
theorem AsyncRequest.run_eq (hooks : List Hook) (s : AsyncRequest) :
    s.run hooks = s := by
  induction hooks generalizing s with
  | nil => rfl
  | cons hd tl ih =>
    have hd_eq : s.deliver hd = s := by cases hd <;> rfl
    show AsyncRequest.run (s.deliver hd) tl = s
    rw [hd_eq]
    exact ih s

/-- C1, as claimed, fails: after `request(Get, "http://example.com/", {})` on a
freshly constructed `AsyncRequest` and the delivery of `onResolve` with a
failing error code, the number of calls of `m_callback` is not one. -/
theorem callback_exactly_once_counterexample :
    ¬ (((AsyncRequest.init.request .Get "http://example.com/" {}).run
      [.resolve { val := 1 } []]).invoked.length = 1) := by
  decide

/-- C1, amended: for every method, URL and options, `request` followed by any
sequence of completion hooks, each with a success or an error code, leaves the
object as it was and calls `m_callback` no time at all; on a freshly constructed
`AsyncRequest` the number of calls is zero. -/
theorem callback_never_invoked :
    (∀ (s : AsyncRequest) (method : HttpMethod) (url : String)
      (options : RequestOptions) (hooks : List Hook),
      (s.request method url options).run hooks = s ∧
      ((s.request method url options).run hooks).invoked = s.invoked) ∧
    (∀ (method : HttpMethod) (url : String) (options : RequestOptions)
      (hooks : List Hook),
      ((AsyncRequest.init.request method url options).run hooks).invoked.length = 0) := by
  constructor
  · intro s method url options hooks
    rw [AsyncRequest.run_eq]
    exact ⟨rfl, rfl⟩
  · intro method url options hooks
    rw [AsyncRequest.run_eq]
    rfl

/-- C2, as claimed, fails: after `request(Get, "http://example.com/", {})` on a
freshly constructed `AsyncRequest`, `onResolve` called with the failing error
code 1 gives the callback no populated `Error` with the default `Response`, and
`onRead` called with the success code 0 gives it no empty `Error`. -/
theorem hooks_error_response_counterexample :
    error_code.toBool { val := 1 } = true ∧
    error_code.toBool { val := 0 } = false ∧
    (¬ ∃ p ∈ ((AsyncRequest.init.request .Get "http://example.com/" {}).onResolve
        { val := 1 } []).invoked, p.1.toBool = true ∧ p.2 = {}) ∧
    (¬ ∃ p ∈ ((AsyncRequest.init.request .Get "http://example.com/" {}).onRead
        { val := 0 } 2).invoked, p.1.toBool = false) := by
  refine ⟨by decide, by decide, ?_, ?_⟩
  · simp [AsyncRequest.onResolve, AsyncRequest.request, AsyncRequest.init]
  · simp [AsyncRequest.onRead, AsyncRequest.request, AsyncRequest.init]

/-- C2, amended: every completion hook of `AsyncRequest` (`onResolve`,
`onConnect`, `onHandshake`, `onWrite`, `onRead`), called with any error code,
success or not, and any other argument, leaves the object as it was and gives
the callback nothing, neither an `Error` nor a `Response`: the calls of
`m_callback` after the hook are those before it. -/
theorem hooks_give_callback_nothing :
    (∀ (s : AsyncRequest) (ec : error_code) (results : List Endpoint),
      s.onResolve ec results = s) ∧
    (∀ (s : AsyncRequest) (ec : error_code) (endpoint : Endpoint),
      s.onConnect ec endpoint = s) ∧
    (∀ (s : AsyncRequest) (ec : error_code), s.onHandshake ec = s) ∧
    (∀ (s : AsyncRequest) (ec : error_code) (bytes_transferred : Nat),
      s.onWrite ec bytes_transferred = s) ∧
    (∀ (s : AsyncRequest) (ec : error_code) (bytes_transferred : Nat),
      s.onRead ec bytes_transferred = s) ∧
    (∀ (s : AsyncRequest) (hook : Hook), (s.deliver hook).invoked = s.invoked) :=
  ⟨fun _ _ _ => rfl, fun _ _ _ => rfl, fun _ _ => rfl, fun _ _ _ => rfl,
    fun _ _ _ => rfl, fun _ hook => by cases hook <;> rfl⟩

/-- C3, as claimed, fails: after `request(Get, "https://example.com/", {})` on a
freshly constructed `AsyncRequest` the flag `m_ssl` is not true. -/
theorem https_selects_ssl_counterexample :
    ¬ ((AsyncRequest.init.request .Get "https://example.com/" {}).m_ssl = true) := by
  decide

/-- C3, amended: for every method, URL of any scheme and options, `request`
leaves the flag `m_ssl` as it was; on a freshly constructed `AsyncRequest`,
whose `m_ssl` is false, the flag is false after `request`, for an `http` URL and
for an `https` URL alike. -/
theorem request_leaves_ssl_flag :
    (∀ (s : AsyncRequest) (method : HttpMethod) (url : String)
      (options : RequestOptions), (s.request method url options).m_ssl = s.m_ssl) ∧
    (∀ (method : HttpMethod) (url : String) (options : RequestOptions),
      (AsyncRequest.init.request method url options).m_ssl = false) ∧
    (AsyncRequest.init.request .Get "http://example.com/" {}).m_ssl = false ∧
    (AsyncRequest.init.request .Get "https://example.com/" {}).m_ssl = false :=
  ⟨fun _ _ _ _ => rfl, fun _ _ _ => rfl, rfl, rfl⟩

end boostpp
